import Mathlib

/-! Verification development for the gbuild source-based package manager.

    The embedding covers:
    - the configuration reconciler `EtcManager` of gbuild1.0.py, together
      with a faithful embedding of the parts of CPython's difflib that
      `merge_files`/`process_file` call (`unified_diff` with its
      `SequenceMatcher`, and `restore`);
    - the build pipeline `build_package` and `build_stage` of gbuild1.0.py,
      modelled as an event trace over oracles for the external commands;
    - the install manager `Gerenciador.instalar_pacote` of gbuild.py;
    - the `VersionTracker` of version-tracker.py.

    File contents are modelled as their list of lines (Python `readlines`),
    filesystem trees as association lists from relative path to content,
    and the opaque external world (network, subprocesses, hashing) as
    boolean/string oracles supplied to each run. -/

namespace Gbuild

/-- A configuration file's content: its list of lines, as Python `readlines`
    produces them (each line normally keeps its trailing newline). -/
abbrev Content := List String

namespace Difflib

/-- An entry of `SequenceMatcher.get_opcodes`: the tuple
    (tag, i1, i2, j1, j2) with tag one of "replace", "delete", "insert",
    "equal". -/
structure Opcode where
  tag : String
  i1 : Nat
  i2 : Nat
  j1 : Nat
  j2 : Nat
deriving DecidableEq

def opcodeDefault : Opcode := ⟨"", 0, 0, 0, 0⟩

/-- The b2j table of `SequenceMatcher.__chain_b`: for a line, the ascending
    list of indices at which it occurs in `b`. -/
def b2j (b : List String) (s : String) : List Nat :=
  (List.range b.length).filter (fun j => b.getD j "" == s)

/-- b2j after the autojunk step of `SequenceMatcher.__chain_b` (isjunk=None,
    autojunk=True): when `b` has at least 200 lines, entries occurring more
    than `len b / 100 + 1` times are deleted from b2j.  The junk set bjunk
    itself stays empty because isjunk is None. -/
def b2jAuto (b : List String) (s : String) : List Nat :=
  if 200 ≤ b.length then
    if b.length / 100 + 1 < (b2j b s).length then [] else b2j b s
  else b2j b s

/-- The running best match (besti, bestj, bestsize) of
    `SequenceMatcher.find_longest_match`. -/
structure Best where
  besti : Nat
  bestj : Nat
  bestsize : Nat
deriving DecidableEq

/-- One iteration (fixed `i`) of the dynamic-programming loop of
    `find_longest_match`: fold over the ascending occurrence list of `a!i`
    in `b`, building the new j2len table and updating the best triple.
    Python breaks out of the loop at the first `j >= bhi`; since the
    occurrence list is ascending, skipping those entries is equivalent. -/
def flm_inner (blo bhi i : Nat) (j2len : Nat → Nat) (js : List Nat) (st : Best) :
    (Nat → Nat) × Best :=
  js.foldl
    (fun acc j =>
      if j < blo then acc
      else if bhi ≤ j then acc
      else
        let k := (if j = 0 then 0 else j2len (j - 1)) + 1
        let nj := fun x => if x = j then k else acc.1 x
        let best := if acc.2.bestsize < k then Best.mk (i + 1 - k) (j + 1 - k) k else acc.2
        (nj, best))
    ((fun _ => 0), st)

/-- The outer `for i in range(alo, ahi)` loop of `find_longest_match`. -/
def flm_dp (a : List String) (bj : String → List Nat) (alo ahi blo bhi : Nat) : Best :=
  ((List.range' alo (ahi - alo)).foldl
    (fun (acc : (Nat → Nat) × Best) i =>
      flm_inner blo bhi i acc.1 (bj (a.getD i "")) acc.2)
    ((fun _ => 0), ⟨alo, blo, 0⟩)).2

/-- The while-loops of `find_longest_match` that extend the best block at its
    left end; `junkFlag` selects the non-junk (false) or junk (true) variant.
    Fuel bounds the iteration count; callers pass fuel greater than besti,
    which suffices since besti strictly decreases at each step. -/
def flm_extend_left (a b : List String) (bjunk : String → Bool) (junkFlag : Bool)
    (alo blo : Nat) : Nat → Best → Best
  | 0, st => st
  | fuel + 1, st =>
    if alo < st.besti ∧ blo < st.bestj ∧
        bjunk (b.getD (st.bestj - 1) "") = junkFlag ∧
        a.getD (st.besti - 1) "" = b.getD (st.bestj - 1) "" then
      flm_extend_left a b bjunk junkFlag alo blo fuel
        ⟨st.besti - 1, st.bestj - 1, st.bestsize + 1⟩
    else st

/-- The while-loops of `find_longest_match` that extend the best block at its
    right end.  Fuel greater than ahi suffices since besti + bestsize grows
    towards ahi at each step. -/
def flm_extend_right (a b : List String) (bjunk : String → Bool) (junkFlag : Bool)
    (ahi bhi : Nat) : Nat → Best → Best
  | 0, st => st
  | fuel + 1, st =>
    if st.besti + st.bestsize < ahi ∧ st.bestj + st.bestsize < bhi ∧
        bjunk (b.getD (st.bestj + st.bestsize) "") = junkFlag ∧
        a.getD (st.besti + st.bestsize) "" = b.getD (st.bestj + st.bestsize) "" then
      flm_extend_right a b bjunk junkFlag ahi bhi fuel
        ⟨st.besti, st.bestj, st.bestsize + 1⟩
    else st

/-- `SequenceMatcher.find_longest_match` with isjunk=None: the DP sweep,
    then the four extension loops in source order (non-junk left, non-junk
    right, junk left, junk right).  With the empty junk set the two junk
    loops are identities, but they are kept for faithfulness. -/
def find_longest_match (a b : List String) (bj : String → List Nat)
    (bjunk : String → Bool) (alo ahi blo bhi : Nat) : Best :=
  let st0 := flm_dp a bj alo ahi blo bhi
  let st1 := flm_extend_left a b bjunk false alo blo (st0.besti + 1) st0
  let st2 := flm_extend_right a b bjunk false ahi bhi (ahi + 1) st1
  let st3 := flm_extend_left a b bjunk true alo blo (st2.besti + 1) st2
  flm_extend_right a b bjunk true ahi bhi (ahi + 1) st3

/-- The block-collection loop of `SequenceMatcher.get_matching_blocks`.
    The Python queue-based loop explores exactly the ranges of this
    bisection recursion; the traversal order is irrelevant because the
    result is sorted afterwards.  Fuel bounds the recursion depth;
    `length a + length b + 1` suffices because every found block has
    positive size and strictly shrinks both subranges. -/
def gmb_rec (a b : List String) (bj : String → List Nat) (bjunk : String → Bool) :
    Nat → Nat → Nat → Nat → Nat → List (Nat × Nat × Nat)
  | 0, _, _, _, _ => []
  | fuel + 1, alo, ahi, blo, bhi =>
    let st := find_longest_match a b bj bjunk alo ahi blo bhi
    if st.bestsize = 0 then []
    else
      gmb_rec a b bj bjunk fuel alo st.besti blo st.bestj
        ++ [(st.besti, st.bestj, st.bestsize)]
        ++ gmb_rec a b bj bjunk fuel (st.besti + st.bestsize) ahi
             (st.bestj + st.bestsize) bhi

/-- Lexicographic comparison of matching-block triples, as Python's
    `list.sort` orders tuples. -/
def tripleLe (x y : Nat × Nat × Nat) : Bool :=
  if x.1 < y.1 then true
  else if y.1 < x.1 then false
  else if x.2.1 < y.2.1 then true
  else if y.2.1 < x.2.1 then false
  else decide (x.2.2 ≤ y.2.2)

def insert_sorted (t : Nat × Nat × Nat) :
    List (Nat × Nat × Nat) → List (Nat × Nat × Nat)
  | [] => [t]
  | h :: rest => if tripleLe t h then t :: h :: rest else h :: insert_sorted t rest

def sort_triples (l : List (Nat × Nat × Nat)) : List (Nat × Nat × Nat) :=
  l.foldr insert_sorted []

/-- `SequenceMatcher.get_matching_blocks`: collect the blocks, sort them,
    merge adjacent blocks, and append the (len a, len b, 0) sentinel. -/
def get_matching_blocks (a b : List String) : List (Nat × Nat × Nat) :=
  let raw := sort_triples
    (gmb_rec a b (b2jAuto b) (fun _ => false) (a.length + b.length + 1)
      0 a.length 0 b.length)
  let step := raw.foldl
    (fun (acc : List (Nat × Nat × Nat) × Nat × Nat × Nat) blk =>
      let i1 := acc.2.1
      let j1 := acc.2.2.1
      let k1 := acc.2.2.2
      if i1 + k1 = blk.1 ∧ j1 + k1 = blk.2.1 then
        (acc.1, (i1, j1, k1 + blk.2.2))
      else
        ((if k1 ≠ 0 then acc.1 ++ [(i1, j1, k1)] else acc.1), blk))
    ([], (0, 0, 0))
  (if step.2.2.2 ≠ 0 then step.1 ++ [step.2] else step.1)
    ++ [(a.length, b.length, 0)]

/-- `SequenceMatcher.get_opcodes`. -/
def get_opcodes (a b : List String) : List Opcode :=
  ((get_matching_blocks a b).foldl
    (fun (acc : List Opcode × Nat × Nat) blk =>
      let i := acc.2.1
      let j := acc.2.2
      let ai := blk.1
      let bj := blk.2.1
      let size := blk.2.2
      let withTag :=
        if i < ai ∧ j < bj then acc.1 ++ [⟨"replace", i, ai, j, bj⟩]
        else if i < ai then acc.1 ++ [⟨"delete", i, ai, j, bj⟩]
        else if j < bj then acc.1 ++ [⟨"insert", i, ai, j, bj⟩]
        else acc.1
      let i2 := ai + size
      let j2 := bj + size
      let withEq := if size ≠ 0 then withTag ++ [⟨"equal", ai, i2, bj, j2⟩] else withTag
      (withEq, i2, j2))
    ([], 0, 0)).1

/-- The fixup of the leading opcode in `get_grouped_opcodes`. -/
def fixup_head (n : Nat) : List Opcode → List Opcode
  | [] => []
  | c :: rest =>
    if c.tag = "equal" then
      ⟨c.tag, max c.i1 (c.i2 - n), c.i2, max c.j1 (c.j2 - n), c.j2⟩ :: rest
    else c :: rest

/-- The fixup of the trailing opcode in `get_grouped_opcodes`. -/
def fixup_last (n : Nat) (l : List Opcode) : List Opcode :=
  match l.reverse with
  | [] => []
  | c :: rest =>
    if c.tag = "equal" then
      (Opcode.mk c.tag c.i1 (min c.i2 (c.i1 + n)) c.j1 (min c.j2 (c.j1 + n)) :: rest).reverse
    else l

/-- `SequenceMatcher.get_grouped_opcodes` with context size `n` (difflib's
    default is 3). -/
def get_grouped_opcodes (n : Nat) (a b : List String) : List (List Opcode) :=
  let codes0 := get_opcodes a b
  let codes1 := if codes0 = [] then [⟨"equal", 0, 1, 0, 1⟩] else codes0
  let codes := fixup_last n (fixup_head n codes1)
  let nn := n + n
  let step := codes.foldl
    (fun (acc : List (List Opcode) × List Opcode) c =>
      if c.tag = "equal" ∧ nn < c.i2 - c.i1 then
        (acc.1 ++ [acc.2 ++ [⟨c.tag, c.i1, min c.i2 (c.i1 + n), c.j1, min c.j2 (c.j1 + n)⟩]],
         [⟨c.tag, max c.i1 (c.i2 - n), c.i2, max c.j1 (c.j2 - n), c.j2⟩])
      else (acc.1, acc.2 ++ [c]))
    ([], [])
  if step.2 ≠ [] ∧ ¬(step.2.length = 1 ∧ (step.2.headD opcodeDefault).tag = "equal") then
    step.1 ++ [step.2]
  else step.1

/-- Python slice `l[i:j]` on a list of lines. -/
def slice (l : List String) (i j : Nat) : List String := (l.drop i).take (j - i)

/-- difflib's `_format_range_unified`. -/
def format_range_unified (start stop : Nat) : String :=
  let beginning := start + 1
  let len := stop - start
  if len = 1 then toString beginning
  else toString (if len = 0 then beginning - 1 else beginning) ++ "," ++ toString len

/-- The lines emitted by `unified_diff` for one opcode group: the hunk header
    and the prefixed context/minus/plus lines. -/
def hunk_lines (a b : List String) (g : List Opcode) : List String :=
  let first := g.headD opcodeDefault
  let last := g.getLastD opcodeDefault
  ("@@ -" ++ format_range_unified first.i1 last.i2 ++ " +"
      ++ format_range_unified first.j1 last.j2 ++ " @@" ++ "\n")
    :: (g.map (fun c =>
        if c.tag = "equal" then (slice a c.i1 c.i2).map (fun line => " " ++ line)
        else
          (if c.tag = "replace" ∨ c.tag = "delete" then
            (slice a c.i1 c.i2).map (fun line => "-" ++ line)
          else [])
            ++ (if c.tag = "replace" ∨ c.tag = "insert" then
                (slice b c.j1 c.j2).map (fun line => "+" ++ line)
              else []))).flatten

/-- difflib's `unified_diff` with default n=3 and lineterm newline: the two
    header lines (emitted once, before the first group) followed by the
    hunks.  An empty group list produces no output at all. -/
def unified_diff (fromfile tofile : String) (a b : List String) : List String :=
  match get_grouped_opcodes 3 a b with
  | [] => []
  | gs => ("--- " ++ fromfile ++ "\n") :: ("+++ " ++ tofile ++ "\n")
      :: (gs.map (hunk_lines a b)).flatten

/-- difflib's `restore delta 1`: keep the lines whose first two characters
    are two spaces or "- " (dropping that prefix); this reconstructs
    sequence 1 of an ndiff-style delta. -/
def restore_one (delta : List String) : List String :=
  delta.filterMap (fun line =>
    if line.toList.take 2 = [' ', ' '] ∨ line.toList.take 2 = ['-', ' '] then
      some (String.mk (line.toList.drop 2))
    else none)

end Difflib

/-! ## EtcManager (gbuild1.0.py lines 77-134) -/

/-- Suffix test on strings by their character lists; models Python's
    `str.endswith` for one suffix. -/
def ends_with (s suffix : String) : Bool :=
  suffix.toList.isSuffixOf s.toList

/-- The rule selection of `EtcManager.process_file` (line 112):
    `"merge" if filename.endswith((".conf", ".cfg")) else "keep-local"`. -/
def merge_rule (filename : String) : String :=
  if ends_with filename ".conf" || ends_with filename ".cfg" then "merge"
  else "keep-local"

/-- The state `process_file` acts on: the live /etc tree and the backup
    store.  Each backup entry records the relative path and the snapshot
    of the pre-existing live content (the timestamped copy made by
    `backup_file`); backups are appended and never overwritten. -/
structure EtcState where
  live : List (String × Content)
  backups : List (String × Content)
deriving DecidableEq

/-- Writing a file: overwrite the existing entry, or create it. -/
def set_file (m : List (String × Content)) (k : String) (v : Content) :
    List (String × Content) :=
  if (List.lookup k m).isSome then m.map (fun p => if p.1 = k then (k, v) else p)
  else m ++ [(k, v)]

/-- `EtcManager.merge_files`: the line-oriented unified diff of the live
    content against the new content, with fromfile "local", tofile "new". -/
def merge_files (localContent newContent : Content) : List String :=
  Difflib.unified_diff "local" "new" localContent newContent

/-- `EtcManager.process_file` acting on one relative path with its new-tree
    content.  Absent live file: install directly, no backup.  Byte-identical:
    no-op.  Differing: back up the live content, then apply the selected
    rule through the source's keep-local / replace / merge cascade; the
    merge branch overwrites the live file with
    `difflib.restore(merged_diff, 1)` whenever the diff is nonempty and
    auto is set. -/
def process_file (auto : Bool) (filename : String) (newContent : Content)
    (s : EtcState) : EtcState :=
  match List.lookup filename s.live with
  | none => ⟨set_file s.live filename newContent, s.backups⟩
  | some localContent =>
    if localContent = newContent then s
    else
      let s1 : EtcState := ⟨s.live, s.backups ++ [(filename, localContent)]⟩
      let rule := merge_rule filename
      if rule = "keep-local" then s1
      else if rule = "replace" then ⟨set_file s1.live filename newContent, s1.backups⟩
      else if rule = "merge" then
        let merged_diff := merge_files localContent newContent
        if merged_diff ≠ [] ∧ auto = true then
          ⟨set_file s1.live filename (Difflib.restore_one merged_diff), s1.backups⟩
        else s1
      else s1

/-- `EtcManager.process_all`: walk every (relative path, content) entry of
    the new tree and process it. -/
def process_all (auto : Bool) (newTree : List (String × Content)) (s : EtcState) :
    EtcState :=
  newTree.foldl (fun st p => process_file auto p.1 p.2 st) s

/-! ## Build pipeline (gbuild1.0.py lines 40-194)

    Runs are modelled as event traces: an event records one completed
    side-effecting operation of the pipeline.  A failing external command
    produces no event; the outcome records where the run stopped
    (an early return for a checksum mismatch, a propagated exception for
    everything else, as `subprocess.run(check=True)` raises). -/

/-- One completed side-effecting operation of the system.  The constructors
    cover gbuild1.0.py's pipeline and gbuild.py's install manager;
    `dbRegisterEv` is the Package Database registration performed by
    `BancoDados.registrar_pacote`. -/
inductive Ev where
  | prepareSandbox
  | downloadEv
  | verifyEv (valid : Bool)
  | extractEv
  | patchEv (name : String)
  | configureEv
  | makeEv
  | makeInstallEv
  | pySetupEv
  | mesonSetupEv
  | ninjaEv
  | ninjaInstallEv
  | cargoEv
  | postInstallHooksEv
  | updateEtcEv
  | cleanSandboxEv
  | hookEv (cmd : String)
  | testsEv (cmd : String)
  | binaryInstallEv
  | sandboxInstallEv
  | dbRegisterEv (nome versao : String)
deriving DecidableEq

/-- How a `build_package` attempt ended: full success, the early return on a
    checksum mismatch, or a propagated exception from a failed external
    command. -/
inductive BuildExn where
  | downloadErr
  | extractErr
  | patchErr (name : String)
  | buildErr
deriving DecidableEq

inductive BuildOutcome where
  | done
  | shaMismatch
  | raised (e : BuildExn)
deriving DecidableEq

/-- The fields of a gbuild1.0.py recipe dictionary that `build_package` and
    `build_stage` read. -/
structure Recipe where
  urls_tarball : String
  sha256 : String
  dependencias_build : List String
  tipo_build : String
  configure_opts : List String
  patches : List String
deriving DecidableEq

/-- Oracles for the external world of one build attempt: whether each
    external command succeeds, and the SHA-256 hex digest the downloaded
    artifact actually hashes to (`verify_sha256` streams the file through
    hashlib and compares this digest with the recipe's). -/
structure BuildWorld where
  downloadOk : Bool
  artifactDigest : String
  extractOk : Bool
  patchOk : String → Bool
  configureOk : Bool
  makeOk : Bool
  makeInstallOk : Bool
  pySetupOk : Bool
  mesonOk : Bool
  ninjaOk : Bool
  ninjaInstallOk : Bool
  cargoOk : Bool

/-- The patch loop of `build_package`: apply each patch in order; the first
    failing `patch -p1` raises, keeping the events of the earlier patches
    and reporting the failing patch. -/
def apply_patches (patchOk : String → Bool) : List String → List Ev × Option String
  | [] => ([], none)
  | p :: rest =>
    if patchOk p then
      (Ev.patchEv p :: (apply_patches patchOk rest).1, (apply_patches patchOk rest).2)
    else ([], some p)

/-- The build-type dispatch of `build_package` (the if/elif chain on
    `tipo_build`): the events of the completed driver steps and whether the
    driver finished.  An unrecognised build type runs no driver step and
    is not an error, exactly as in the source. -/
def run_build_driver (r : Recipe) (w : BuildWorld) : List Ev × Bool :=
  if r.tipo_build = "autotools" then
    if w.configureOk = false then ([], false)
    else if w.makeOk = false then ([Ev.configureEv], false)
    else if w.makeInstallOk = false then ([Ev.configureEv, Ev.makeEv], false)
    else ([Ev.configureEv, Ev.makeEv, Ev.makeInstallEv], true)
  else if r.tipo_build = "python" then
    if w.pySetupOk = false then ([], false) else ([Ev.pySetupEv], true)
  else if r.tipo_build = "meson" then
    if w.mesonOk = false then ([], false)
    else if w.ninjaOk = false then ([Ev.mesonSetupEv], false)
    else if w.ninjaInstallOk = false then ([Ev.mesonSetupEv, Ev.ninjaEv], false)
    else ([Ev.mesonSetupEv, Ev.ninjaEv, Ev.ninjaInstallEv], true)
  else if r.tipo_build = "rust" then
    if w.cargoOk = false then ([], false) else ([Ev.cargoEv], true)
  else ([], true)

/-- `build_package`: prepare the sandbox, download, verify the checksum
    (early return on mismatch, before extraction), extract, patch, run the
    build driver, then hooks, /etc reconciliation and `clean_sandbox` —
    which the source reaches only on this fully successful path. -/
def build_package (r : Recipe) (w : BuildWorld) : List Ev × BuildOutcome :=
  if w.downloadOk then
    if decide (w.artifactDigest = r.sha256) then
      if w.extractOk then
        match (apply_patches w.patchOk r.patches).2 with
        | some p =>
          ([Ev.prepareSandbox, Ev.downloadEv, Ev.verifyEv true, Ev.extractEv]
             ++ (apply_patches w.patchOk r.patches).1,
           BuildOutcome.raised (BuildExn.patchErr p))
        | none =>
          if (run_build_driver r w).2 then
            ([Ev.prepareSandbox, Ev.downloadEv, Ev.verifyEv true, Ev.extractEv]
               ++ (apply_patches w.patchOk r.patches).1 ++ (run_build_driver r w).1
               ++ [Ev.postInstallHooksEv, Ev.updateEtcEv, Ev.cleanSandboxEv],
             BuildOutcome.done)
          else
            ([Ev.prepareSandbox, Ev.downloadEv, Ev.verifyEv true, Ev.extractEv]
               ++ (apply_patches w.patchOk r.patches).1 ++ (run_build_driver r w).1,
             BuildOutcome.raised BuildExn.buildErr)
      else ([Ev.prepareSandbox, Ev.downloadEv, Ev.verifyEv true],
            BuildOutcome.raised BuildExn.extractErr)
    else ([Ev.prepareSandbox, Ev.downloadEv, Ev.verifyEv false],
          BuildOutcome.shaMismatch)
  else ([Ev.prepareSandbox], BuildOutcome.raised BuildExn.downloadErr)

/-- Recipe lookup in a stage's recipe set.  Python dicts preserve insertion
    order, so a recipe set is an association list with distinct names. -/
def lookup_recipe (recipes : List (String × Recipe)) (name : String) : Option Recipe :=
  List.lookup name recipes

/-- The sequence of `build_package` invocations (by package name) that
    `build_stage` makes when no invocation raises: for each recipe entry in
    order, first its declared build-time dependencies that have an in-stage
    recipe, then the package itself.  There is no memoization and no
    success check in the source. -/
def build_stage_order (recipes : List (String × Recipe)) : List String :=
  (recipes.map (fun pr =>
    (pr.2.dependencias_build.filter (fun d => (lookup_recipe recipes d).isSome))
      ++ [pr.1])).flatten

/-! ## Install manager (gbuild.py) -/

/-- The `Testes` dataclass: a test command and its required flag. -/
structure Testes where
  command : String
  required : Bool
deriving DecidableEq

/-- The `Hooks` dataclass: command lists per lifecycle phase. -/
structure Hooks where
  pre_download : List String
  pre_build : List String
  post_build : List String
  post_install : List String
  post_remove : List String
deriving DecidableEq

/-- The fields of the `Receita` dataclass that `instalar_pacote` reads. -/
structure Receita where
  nome : String
  versao : String
  descricao : String
  flags_use : List String
  tipo_build : String
  hooks : Hooks
  testes : Option Testes
  binario_disponivel : Bool
deriving DecidableEq

/-- The `PacoteInstalado` record stored by the Package Database (its
    timestamp is irrelevant to the claims and omitted). -/
structure PacoteInstalado where
  nome : String
  versao : String
  flags_use : List String
deriving DecidableEq

/-- `BancoDados.registrar_pacote`: upsert by name (dict assignment under the
    lock; the value at an existing key is replaced, a new key is added). -/
def registrar_pacote (banco : List (String × PacoteInstalado)) (pkg : PacoteInstalado) :
    List (String × PacoteInstalado) :=
  if (List.lookup pkg.nome banco).isSome then
    banco.map (fun p => if p.1 = pkg.nome then (p.1, pkg) else p)
  else banco ++ [(pkg.nome, pkg)]

/-- `Gerenciador.executar_hooks`: each command is echoed in order; nothing
    is executed and no failure is possible in the source. -/
def executar_hooks (cmds : List String) : List Ev :=
  cmds.map Ev.hookEv

/-- `Gerenciador.rodar_testes`: prints the command (and, for a required
    test, the notice that failure blocks installation) but never runs the
    command and computes no outcome. -/
def rodar_testes (t : Testes) : List Ev :=
  [Ev.testsEv t.command]

/-- `Gerenciador.instalar_pacote`: pre_download hooks; then either the
    binary short-circuit or the compile path with its optional test run,
    post_build hooks and sandbox install; then post_install hooks; and
    finally — unconditionally — registration in the Package Database. -/
def instalar_pacote (banco : List (String × PacoteInstalado)) (receita : Receita)
    (usar_binario rodar : Bool) : List Ev × List (String × PacoteInstalado) :=
  let e1 := executar_hooks receita.hooks.pre_download
  let e2 :=
    if usar_binario && receita.binario_disponivel then [Ev.binaryInstallEv]
    else
      (if rodar then
        (match receita.testes with
         | some t => rodar_testes t
         | none => [])
      else [])
        ++ executar_hooks receita.hooks.post_build ++ [Ev.sandboxInstallEv]
  let e3 := executar_hooks receita.hooks.post_install
  (e1 ++ e2 ++ e3 ++ [Ev.dbRegisterEv receita.nome receita.versao],
   registrar_pacote banco ⟨receita.nome, receita.versao, receita.flags_use⟩)

/-! ## Version tracker (version-tracker.py) -/

/-- The `Package` class of version-tracker.py.  Both the installed table and
    the loaded manifest hold these records; for a manifest entry, `version`
    holds the manifest's latest version, as `load_manifest` builds it. -/
structure Package where
  name : String
  version : String
  url : String
  update_policy : String
  group : Option String
deriving DecidableEq

/-- One update descriptor of `check_updates`: the tuple
    (old version, new version, policy, group). -/
structure UpdateInfo where
  old_ver : String
  new_ver : String
  policy : String
  group : Option String
deriving DecidableEq

/-- `VersionTracker.check_updates`: for each installed package, in table
    order, that also appears in the manifest with a differing version, emit
    its descriptor. -/
def check_updates (installed manifest : List (String × Package)) :
    List (String × UpdateInfo) :=
  installed.filterMap (fun p =>
    match List.lookup p.1 manifest with
    | some up =>
      if p.2.version = up.version then none
      else some (p.1, ⟨p.2.version, up.version, up.update_policy, up.group⟩)
    | none => none)

/-- The attribute mutation `self.installed_packages[name].version = new_ver`.
    In the source the name always comes from the installed table, so only
    present entries are updated. -/
def set_pkg_version (installed : List (String × Package)) (name newVer : String) :
    List (String × Package) :=
  installed.map (fun p => if p.1 = name then (p.1, { p.2 with version := newVer }) else p)

/-- `VersionTracker.update_auto`: for every descriptor with policy "auto",
    set the recorded installed version to the new version.  The source
    performs no rebuild (the `build_package` call is absent) and checks no
    outcome before advancing the version. -/
def update_auto (versions : List (String × UpdateInfo))
    (installed : List (String × Package)) : List (String × Package) :=
  versions.foldl
    (fun inst nu => if nu.2.policy = "auto" then set_pkg_version inst nu.1 nu.2.new_ver else inst)
    installed

/-- `VersionTracker.update_group`: the same advance restricted to one
    group. -/
def update_group (group_name : String) (versions : List (String × UpdateInfo))
    (installed : List (String × Package)) : List (String × Package) :=
  versions.foldl
    (fun inst nu =>
      if nu.2.group = some group_name ∧ nu.2.policy = "auto" then
        set_pkg_version inst nu.1 nu.2.new_ver
      else inst)
    installed

/-- Tokenisation of one package-database line: maximal runs of
    non-whitespace characters, as Python's `line.strip().split()`. -/
def ws_split_aux : List Char → List Char → List String
  | [], acc => if acc = [] then [] else [String.mk acc.reverse]
  | c :: rest, acc =>
    if c.isWhitespace then
      (if acc = [] then [] else [String.mk acc.reverse]) ++ ws_split_aux rest []
    else ws_split_aux rest (c :: acc)

def split_whitespace (line : String) : List String :=
  ws_split_aux line.toList []

/-- Dict assignment `packages[name] = Package(...)` restricted to the two
    fields a database line carries: replace the value at an existing key,
    else add the key. -/
def upsert_version (m : List (String × String)) (name version : String) :
    List (String × String) :=
  if (List.lookup name m).isSome then
    m.map (fun p => if p.1 = name then (p.1, version) else p)
  else m ++ [(name, version)]

/-- One line of `VersionTracker.load_installed_packages`: lines with at
    least two whitespace-separated fields record (name, version); every
    other line is skipped. -/
def load_step (packages : List (String × String)) (line : String) :
    List (String × String) :=
  match split_whitespace line with
  | name :: version :: _ => upsert_version packages name version
  | _ => packages

/-- `VersionTracker.load_installed_packages` over the database file's
    lines. -/
def load_installed_packages (fileLines : List String) : List (String × String) :=
  fileLines.foldl load_step []

/-- Whether a database line is a well-formed record for `name`: at least two
    whitespace-separated fields with `name` as the first.  Exactly these
    lines assign to `packages[name]` in `load_installed_packages`. -/
def line_for (name line : String) : Bool :=
  match split_whitespace line with
  | n :: _ :: _ => n == name
  | _ => false

/-! ## Concrete fixtures used by witnesses and counterexamples -/

/-- A recipe with no in-stage dependencies. -/
def recipe_a : Recipe :=
  { urls_tarball := "https://example.org/a.tar.xz", sha256 := "ha",
    dependencias_build := [], tipo_build := "autotools",
    configure_opts := [], patches := [] }

/-- A recipe whose only build-time dependency is "a". -/
def recipe_b : Recipe :=
  { urls_tarball := "https://example.org/b.tar.xz", sha256 := "hb",
    dependencias_build := ["a"], tipo_build := "autotools",
    configure_opts := [], patches := [] }

/-- A world whose downloaded artifact hashes to a digest different from any
    of the fixture recipes' checksums, with every other external command
    succeeding. -/
def world_bad_digest : BuildWorld :=
  { downloadOk := true, artifactDigest := "corrupted", extractOk := true,
    patchOk := fun _ => true, configureOk := true, makeOk := true,
    makeInstallOk := true, pySetupOk := true, mesonOk := true,
    ninjaOk := true, ninjaInstallOk := true, cargoOk := true }

/-- Scenario C's recipe: a required test whose command exits non-zero when
    run. -/
def receita_c3 : Receita :=
  { nome := "foo", versao := "1.0", descricao := "", flags_use := [],
    tipo_build := "autotools",
    hooks := ⟨[], [], [], [], []⟩,
    testes := some ⟨"exit 1", true⟩,
    binario_disponivel := false }

/-- Scenario E's installed table: pkg at version 1.0. -/
def vt_installed : List (String × Package) :=
  [("pkg", ⟨"pkg", "1.0", "", "notify", none⟩)]

/-- Scenario E's manifest: pkg at latest 2.0, policy auto, group core. -/
def vt_manifest : List (String × Package) :=
  [("pkg", ⟨"pkg", "2.0", "https://example.org/pkg", "auto", some "core"⟩)]

/-! ## Helper lemmas -/

/-- Dict-style replacement at a present key is found by lookup. -/
theorem lookup_map_replace {β : Type} (m : List (String × β)) (name : String) (v : β)
    (h : (List.lookup name m).isSome = true) :
    List.lookup name (m.map (fun p => if p.1 = name then (p.1, v) else p)) = some v := by
  induction m with
  | nil => simp [List.lookup] at h
  | cons p rest ih =>
    obtain ⟨k, b⟩ := p
    by_cases hp : k = name
    · subst hp
      simp [List.lookup_cons]
    · have hb : (name == k) = false := beq_eq_false_iff_ne.mpr (fun h2 => hp h2.symm)
      simp only [List.lookup_cons, hb, cond_false] at h
      simp [List.lookup_cons, hb, hp]
      exact ih h

/-- Appending a binding for an absent key is found by lookup. -/
theorem lookup_append_last {β : Type} (m : List (String × β)) (name : String) (v : β)
    (h : List.lookup name m = none) :
    List.lookup name (m ++ [(name, v)]) = some v := by
  induction m with
  | nil => simp [List.lookup_cons]
  | cons p rest ih =>
    obtain ⟨k, b⟩ := p
    cases hb : (name == k) with
    | true => simp [List.lookup_cons, hb] at h
    | false =>
      simp only [List.lookup_cons, hb] at h
      simp only [List.cons_append, List.lookup_cons, hb]
      simpa using ih (by simpa using h)

/-- `upsert_version` always records the given version at the given name. -/
theorem lookup_upsert_version (m : List (String × String)) (name version : String) :
    List.lookup name (upsert_version m name version) = some version := by
  unfold upsert_version
  by_cases h : (List.lookup name m).isSome = true
  · rw [if_pos h]
    exact lookup_map_replace m name version h
  · rw [if_neg h]
    refine lookup_append_last m name version ?_
    cases hl : List.lookup name m with
    | none => rfl
    | some v2 => rw [hl] at h; simp at h

/-- Dict-style replacement at one key leaves lookups at a different key
    unchanged. -/
theorem lookup_map_replace_other {β : Type} (m : List (String × β)) (k0 name : String)
    (v : β) (hne : k0 ≠ name) :
    List.lookup name (m.map (fun p => if p.1 = k0 then (p.1, v) else p))
      = List.lookup name m := by
  induction m with
  | nil => rfl
  | cons p rest ih =>
    obtain ⟨k, b⟩ := p
    by_cases hk : k = k0
    · subst hk
      have hb : (name == k) = false :=
        beq_eq_false_iff_ne.mpr (fun h2 => hne (h2.symm))
      simp [List.lookup_cons, hb, ih]
    · cases hbeq : (name == k) with
      | true => simp [List.lookup_cons, hbeq, hk]
      | false => simp [List.lookup_cons, hbeq, hk, ih]

/-- Appending a binding for one key leaves lookups at a different key
    unchanged. -/
theorem lookup_append_other {β : Type} (m : List (String × β)) (k0 name : String)
    (v : β) (hne : k0 ≠ name) :
    List.lookup name (m ++ [(k0, v)]) = List.lookup name m := by
  induction m with
  | nil =>
    simp [List.lookup_cons, beq_eq_false_iff_ne.mpr (fun h2 => hne (h2.symm))]
  | cons p rest ih =>
    obtain ⟨k, b⟩ := p
    cases hbeq : (name == k) with
    | true => simp [List.lookup_cons, hbeq]
    | false => simp [List.lookup_cons, hbeq, ih]

/-- `upsert_version` at one name leaves lookups at another name unchanged. -/
theorem lookup_upsert_other (m : List (String × String)) (k0 name v : String)
    (hne : k0 ≠ name) :
    List.lookup name (upsert_version m k0 v) = List.lookup name m := by
  unfold upsert_version
  split
  · exact lookup_map_replace_other m k0 name v hne
  · exact lookup_append_other m k0 name v hne

/-- A line that is not a well-formed record for `name` leaves `name`'s
    lookup unchanged: short lines are skipped, and well-formed lines for a
    different name only upsert that other name. -/
theorem lookup_load_step_other (m : List (String × String)) (line name : String)
    (h : line_for name line = false) :
    List.lookup name (load_step m line) = List.lookup name m := by
  rcases hts : split_whitespace line with _ | ⟨n, _ | ⟨v, r⟩⟩
  · simp [load_step, hts]
  · simp [load_step, hts]
  · simp only [line_for, hts] at h
    simp only [load_step, hts]
    exact lookup_upsert_other m n name v (beq_eq_false_iff_ne.mp h)

/-- Folding `load_step` over lines none of which is a well-formed record for
    `name` preserves `name`'s recorded version. -/
theorem lookup_foldl_load_other (l2 : List String) (name : String) :
    ∀ (m : List (String × String)) (version : String),
      List.lookup name m = some version →
      (∀ line2 ∈ l2, line_for name line2 = false) →
      List.lookup name (List.foldl load_step m l2) = some version := by
  induction l2 with
  | nil => intro m version hm _; exact hm
  | cons line rest ih =>
    intro m version hm h2
    have hstep : List.lookup name (load_step m line) = List.lookup name m :=
      lookup_load_step_other m line name (h2 line (List.mem_cons_self line rest))
    simp only [List.foldl_cons]
    exact ih (load_step m line) version (hstep.trans hm)
      (fun q hq => h2 q (List.mem_cons_of_mem line hq))

/-- A database line with fewer than two fields leaves the table unchanged. -/
theorem load_step_skip (acc : List (String × String)) (line : String)
    (h : (split_whitespace line).length < 2) : load_step acc line = acc := by
  rcases hts : split_whitespace line with _ | ⟨a, _ | ⟨b, t⟩⟩
  · simp [load_step, hts]
  · simp [load_step, hts]
  · rw [hts] at h
    simp at h
    omega

/-- `process_file` on a live file byte-identical to the new content is a
    no-op (the `filecmp.cmp` early return). -/
theorem process_file_self (auto : Bool) (filename : String) (newContent : Content)
    (s : EtcState) (hl : List.lookup filename s.live = some newContent) :
    process_file auto filename newContent s = s := by
  simp [process_file, hl]

/-- `process_all` over a tree all of whose files are already byte-identical
    in the live tree changes nothing. -/
theorem process_all_fixed (auto : Bool) :
    ∀ (tree : List (String × Content)) (s : EtcState),
      (∀ p ∈ tree, List.lookup p.1 s.live = some p.2) →
      process_all auto tree s = s := by
  intro tree
  induction tree with
  | nil => intro s _; rfl
  | cons p rest ih =>
    intro s h
    have h1 : process_file auto p.1 p.2 s = s :=
      process_file_self auto p.1 p.2 s (h p (List.mem_cons_self p rest))
    calc process_all auto (p :: rest) s
        = process_all auto rest (process_file auto p.1 p.2 s) := rfl
      _ = process_all auto rest s := by rw [h1]
      _ = s := ih s (fun q hq => h q (List.mem_cons_of_mem p hq))

/-- Characterisation of `process_file` on a differing live file: the backup
    is recorded first, then the rule cascade decides the live tree. -/
theorem process_file_diff (auto : Bool) (filename : String) (newContent : Content)
    (s : EtcState) (localContent : Content)
    (hl : List.lookup filename s.live = some localContent)
    (hne : localContent ≠ newContent) :
    process_file auto filename newContent s =
      (if merge_rule filename = "keep-local" then
        EtcState.mk s.live (s.backups ++ [(filename, localContent)])
      else if merge_rule filename = "replace" then
        EtcState.mk (set_file s.live filename newContent)
          (s.backups ++ [(filename, localContent)])
      else if merge_rule filename = "merge" then
        (if merge_files localContent newContent ≠ [] ∧ auto = true then
          EtcState.mk
            (set_file s.live filename
              (Difflib.restore_one (merge_files localContent newContent)))
            (s.backups ++ [(filename, localContent)])
        else EtcState.mk s.live (s.backups ++ [(filename, localContent)]))
      else EtcState.mk s.live (s.backups ++ [(filename, localContent)])) := by
  simp only [process_file, hl]
  rw [if_neg hne]

/-- No sandbox-release event is among the patch-step events. -/
theorem clean_not_mem_apply_patches (f : String → Bool) (ps : List String) :
    Ev.cleanSandboxEv ∉ (apply_patches f ps).1 := by
  induction ps with
  | nil => simp [apply_patches]
  | cons p rest ih =>
    by_cases hp : f p = true
    · simp [apply_patches, hp, ih]
    · simp [apply_patches, hp]

/-- No sandbox-release event is among the build-driver events. -/
theorem clean_not_mem_run_build_driver (r : Recipe) (w : BuildWorld) :
    Ev.cleanSandboxEv ∉ (run_build_driver r w).1 := by
  unfold run_build_driver
  repeat' split
  all_goals simp

/-- Splitting the flattened map of a list at any element. -/
theorem flatten_map_split {α β : Type} (f : α → List β) (l : List α) (x : α)
    (hx : x ∈ l) : ∃ pre post, (l.map f).flatten = pre ++ (f x ++ post) := by
  induction l with
  | nil => cases hx
  | cons h t ih =>
    rcases List.mem_cons.mp hx with rfl | hx2
    · exact ⟨[], (t.map f).flatten, by simp⟩
    · obtain ⟨pre, post, hsplit⟩ := ih hx2
      exact ⟨f h ++ pre, post, by simp [hsplit]⟩

/-! ## Claim theorems -/

/-- C1: for a differing .conf file processed with autoMerge on, the source
    overwrites the live file with `difflib.restore(unified_diff(...), 1)`.
    On live content "a" and new content "b" this writes the empty file —
    no line of a unified diff starts with two spaces or "- " here — and not
    the claimed merged reconstruction "b" (the diff replayed onto the live
    content); the pre-merge backup is taken. -/
theorem c1_auto_merge_truncates_live :
    List.lookup "app.conf"
        (process_file true "app.conf" ["b\n"] ⟨[("app.conf", ["a\n"])], []⟩).live
      = some [] ∧
    (([] : Content) ≠ ["b\n"]) ∧
    (process_file true "app.conf" ["b\n"] ⟨[("app.conf", ["a\n"])], []⟩).backups
      = [("app.conf", ["a\n"])] := by
  refine ⟨by decide, by decide, by decide⟩

/-- C2 counterexample: in the stage {a, b} where b depends on a,
    `build_stage` invokes the build of a twice (once for a's own entry and
    once as b's dependency), refuting "no package is built more than once
    within a single buildStage run". -/
theorem c2_counterexample :
    ((build_stage_order [("a", recipe_a), ("b", recipe_b)]).count "a" = 2) ∧
    ¬((build_stage_order [("a", recipe_a), ("b", recipe_b)]).count "a" ≤ 1) := by
  decide

/-- C2 amended: for every package of the stage and every declared build-time
    dependency that has an in-stage recipe, a build of the dependency is
    invoked before the package's own-entry build; but builds are not
    memoized (a dependency is re-invoked for each dependent) and dependency
    success is not checked. -/
theorem c2_amended_dep_invoked_before (recipes : List (String × Recipe)) (pkg : String)
    (r : Recipe) (dep : String) (hmem : (pkg, r) ∈ recipes)
    (hdep : dep ∈ r.dependencias_build)
    (hpres : (lookup_recipe recipes dep).isSome = true) :
    ∃ l1 l2, build_stage_order recipes = l1 ++ l2 ∧ dep ∈ l1 ∧ pkg ∈ l2 := by
  obtain ⟨pre, post, hsplit⟩ :=
    flatten_map_split
      (fun pr =>
        (pr.2.dependencias_build.filter fun d => (lookup_recipe recipes d).isSome)
          ++ [pr.1])
      recipes (pkg, r) hmem
  refine ⟨pre ++ (r.dependencias_build.filter fun d => (lookup_recipe recipes d).isSome),
          pkg :: post, ?_, ?_, ?_⟩
  · unfold build_stage_order
    rw [hsplit]
    simp
  · exact List.mem_append.mpr (Or.inr (List.mem_filter.mpr ⟨hdep, hpres⟩))
  · exact List.mem_cons_self pkg post

theorem c2_amended_dep_invoked_before_witness :
    ∃ l1 l2, build_stage_order [("a", recipe_a), ("b", recipe_b)] = l1 ++ l2 ∧
      "a" ∈ l1 ∧ "b" ∈ l2 :=
  c2_amended_dep_invoked_before [("a", recipe_a), ("b", recipe_b)] "b" recipe_b "a"
    (by decide) (by decide) (by decide)

/-- C3: a recipe with a required test whose command exits non-zero is still
    registered in the Package Database: `instalar_pacote` reaches the test
    run (the TESTING stage) but registers unconditionally — the database
    holds an entry for the package after the run, and the result does not
    depend on the test outcome, which the source never computes. -/
theorem c3_required_test_failure_still_registers :
    Ev.testsEv "exit 1" ∈ (instalar_pacote [] receita_c3 false true).1 ∧
    Ev.dbRegisterEv "foo" "1.0" ∈ (instalar_pacote [] receita_c3 false true).1 ∧
    List.lookup "foo" (instalar_pacote [] receita_c3 false true).2
      = some ⟨"foo", "1.0", []⟩ := by
  decide

/-- C4: on Scenario E's tables, `check_updates` emits the one auto
    descriptor and `update_auto` advances the recorded version to "2.0"
    unconditionally — no rebuild is driven and no success is consulted, so
    the recorded version is "2.0" also in a world where the rebuild would
    fail. -/
theorem c4_update_auto_advances_unconditionally :
    check_updates vt_installed vt_manifest
      = [("pkg", ⟨"1.0", "2.0", "auto", some "core"⟩)] ∧
    (List.lookup "pkg"
        (update_auto (check_updates vt_installed vt_manifest) vt_installed)).map
      Package.version = some "2.0" := by
  decide

/-- C5: when the downloaded artifact's digest differs from the recipe's
    declared checksum, `build_package` stops at verification: no extraction,
    patching, configuring, compiling or installing happens, and no Package
    Database registration event occurs. -/
theorem c5_checksum_mismatch_aborts (r : Recipe) (w : BuildWorld)
    (hdl : w.downloadOk = true) (hne : w.artifactDigest ≠ r.sha256) :
    (build_package r w).2 = BuildOutcome.shaMismatch ∧
    Ev.extractEv ∉ (build_package r w).1 ∧
    (∀ p, Ev.patchEv p ∉ (build_package r w).1) ∧
    Ev.configureEv ∉ (build_package r w).1 ∧
    Ev.makeEv ∉ (build_package r w).1 ∧
    Ev.makeInstallEv ∉ (build_package r w).1 ∧
    Ev.pySetupEv ∉ (build_package r w).1 ∧
    Ev.mesonSetupEv ∉ (build_package r w).1 ∧
    Ev.ninjaEv ∉ (build_package r w).1 ∧
    Ev.ninjaInstallEv ∉ (build_package r w).1 ∧
    Ev.cargoEv ∉ (build_package r w).1 ∧
    (∀ n v, Ev.dbRegisterEv n v ∉ (build_package r w).1) := by
  have hb : build_package r w
      = ([Ev.prepareSandbox, Ev.downloadEv, Ev.verifyEv false],
         BuildOutcome.shaMismatch) := by
    unfold build_package
    simp [hdl, hne]
  rw [hb]
  refine ⟨rfl, by simp, by simp, by simp, by simp, by simp, by simp, by simp,
    by simp, by simp, by simp, by simp⟩

theorem c5_checksum_mismatch_aborts_witness :
    (build_package recipe_a world_bad_digest).2 = BuildOutcome.shaMismatch :=
  (c5_checksum_mismatch_aborts recipe_a world_bad_digest rfl (by decide)).1

/-- C6 counterexample: on a checksum mismatch — an ordinary, non-patch
    failure — `build_package` performs no sandbox release, refuting "the
    sandbox is released at the end of the attempt on ordinary failure". -/
theorem c6_counterexample :
    (build_package recipe_a world_bad_digest).2 = BuildOutcome.shaMismatch ∧
    Ev.cleanSandboxEv ∉ (build_package recipe_a world_bad_digest).1 := by
  decide

/-- C6 amended: `clean_sandbox` runs exactly on fully successful attempts;
    every failure — download, checksum mismatch, extraction, patch, build
    driver — skips the release, not just the patch failure. -/
theorem c6_release_iff_success (r : Recipe) (w : BuildWorld) :
    Ev.cleanSandboxEv ∈ (build_package r w).1
      ↔ (build_package r w).2 = BuildOutcome.done := by
  unfold build_package
  by_cases hd : w.downloadOk = true
  · by_cases hv : w.artifactDigest = r.sha256
    · by_cases he : w.extractOk = true
      · cases hp : (apply_patches w.patchOk r.patches).2 with
        | none =>
          have hnp := clean_not_mem_apply_patches w.patchOk r.patches
          have hnd := clean_not_mem_run_build_driver r w
          by_cases hbd : (run_build_driver r w).2 = true
          · simp [hd, hv, he, hp, hbd]
          · simp [hd, hv, he, hp, hbd, hnp, hnd]
        | some p =>
          have hnp := clean_not_mem_apply_patches w.patchOk r.patches
          simp [hd, hv, he, hp, hnp]
      · simp [hd, hv, he]
    · simp [hd, hv]
  · simp [hd]

/-- C7: for every live configuration file that differs from its new-tree
    counterpart, `process_file` records a backup of the pre-existing live
    content regardless of the selected rule, and under keep-local the live
    tree is unchanged. -/
theorem c7_backup_precedes_rules (auto : Bool) (filename : String) (newContent : Content)
    (s : EtcState) (localContent : Content)
    (hl : List.lookup filename s.live = some localContent)
    (hne : localContent ≠ newContent) :
    (process_file auto filename newContent s).backups
        = s.backups ++ [(filename, localContent)] ∧
    (merge_rule filename = "keep-local" →
      (process_file auto filename newContent s).live = s.live) := by
  rw [process_file_diff auto filename newContent s localContent hl hne]
  constructor
  · repeat' split
    all_goals rfl
  · intro hk
    rw [if_pos hk]

theorem c7_backup_precedes_rules_witness :
    (process_file true "motd" ["new\n"] ⟨[("motd", ["old\n"])], []⟩).backups
        = [("motd", ["old\n"])] ∧
    (process_file true "motd" ["new\n"] ⟨[("motd", ["old\n"])], []⟩).live
        = [("motd", ["old\n"])] := by
  have h := c7_backup_precedes_rules true "motd" ["new\n"]
    ⟨[("motd", ["old\n"])], []⟩ ["old\n"] (by decide) (by decide)
  exact ⟨by simpa using h.1, by simpa using h.2 (by decide)⟩

/-- C8 counterexample: a keep-local file that still differs from the new
    tree after the first pass is backed up again by the second pass — one
    backup after the first `process_all`, two after the second — refuting
    "zero additional backups". -/
theorem c8_counterexample :
    (process_all true [("motd", ["new\n"])] ⟨[("motd", ["old\n"])], []⟩).backups.length
        = 1 ∧
    (process_all true [("motd", ["new\n"])]
        (process_all true [("motd", ["new\n"])]
          ⟨[("motd", ["old\n"])], []⟩)).backups.length = 2 := by
  decide

/-- C8 amended: a second `process_all` pass over an unchanged new tree is a
    no-op (no additional backups or live modifications) provided the first
    pass left every file of the new tree byte-identical in the live tree;
    files still differing (keep-local files, and merge files whose automatic
    merge did not produce the new content) are backed up again each pass. -/
theorem c8_second_pass_noop (auto : Bool) (tree : List (String × Content)) (s : EtcState)
    (h : ∀ p ∈ tree, List.lookup p.1 (process_all auto tree s).live = some p.2) :
    process_all auto tree (process_all auto tree s) = process_all auto tree s :=
  process_all_fixed auto tree (process_all auto tree s) h

theorem c8_second_pass_noop_witness :
    process_all true [("app.conf", ["x\n"])]
        (process_all true [("app.conf", ["x\n"])] ⟨[("app.conf", ["x\n"])], []⟩)
      = process_all true [("app.conf", ["x\n"])] ⟨[("app.conf", ["x\n"])], []⟩ :=
  c8_second_pass_noop true [("app.conf", ["x\n"])] ⟨[("app.conf", ["x\n"])], []⟩
    (by decide)

/-- C9: the rule selected by `process_file` is merge exactly for filenames
    ending in .conf or .cfg and keep-local for all others; it is never
    replace, so the replace branch is dead for every input. -/
theorem c9_rule_never_replace (filename : String) :
    ((ends_with filename ".conf" = true ∨ ends_with filename ".cfg" = true) →
        merge_rule filename = "merge") ∧
    (ends_with filename ".conf" = false → ends_with filename ".cfg" = false →
        merge_rule filename = "keep-local") ∧
    merge_rule filename ≠ "replace" := by
  refine ⟨?_, ?_, ?_⟩
  · intro h
    unfold merge_rule
    rcases h with h | h <;> simp [h]
  · intro h1 h2
    unfold merge_rule
    simp [h1, h2]
  · unfold merge_rule
    split
    · decide
    · decide

theorem c9_rule_never_replace_witness :
    merge_rule "app.conf" = "merge" ∧ merge_rule "motd" = "keep-local" :=
  ⟨(c9_rule_never_replace "app.conf").1 (Or.inl (by decide)),
   (c9_rule_never_replace "motd").2.1 (by decide) (by decide)⟩

/-- C10: `load_installed_packages` is total by construction; a line with
    fewer than two whitespace-separated fields contributes nothing wherever
    it occurs in the file; and for every file content, the last well-formed
    line carrying a name determines that name's recorded version — whatever
    precedes it and whatever lines for other names follow it. -/
theorem c10_load_installed_total_lastwins :
    (∀ (pre post : List String) (line : String),
        (split_whitespace line).length < 2 →
        load_installed_packages (pre ++ line :: post)
          = load_installed_packages (pre ++ post)) ∧
    (∀ (l1 : List String) (line : String) (l2 : List String)
        (name version : String) (rest : List String),
        split_whitespace line = name :: version :: rest →
        (∀ line2 ∈ l2, line_for name line2 = false) →
        List.lookup name (load_installed_packages (l1 ++ line :: l2))
          = some version) := by
  constructor
  · intro pre post line h
    unfold load_installed_packages
    rw [List.foldl_append, List.foldl_append, List.foldl_cons,
      load_step_skip _ _ h]
  · intro l1 line l2 name version rest h hl2
    unfold load_installed_packages
    rw [List.foldl_append, List.foldl_cons]
    refine lookup_foldl_load_other l2 name
      (load_step (List.foldl load_step [] l1) line) version ?_ hl2
    simp only [load_step, h]
    exact lookup_upsert_version _ name version

theorem c10_load_installed_total_lastwins_witness :
    (load_installed_packages (["gcc 12.2"] ++ "malformed" :: ["bash 5.2"])
        = load_installed_packages (["gcc 12.2"] ++ ["bash 5.2"])) ∧
    (List.lookup "gcc"
        (load_installed_packages (["gcc 1.0"] ++ "gcc 2.0" :: ["zlib 3.0"]))
      = some "2.0") :=
  ⟨c10_load_installed_total_lastwins.1 ["gcc 12.2"] ["bash 5.2"] "malformed" (by decide),
   c10_load_installed_total_lastwins.2 ["gcc 1.0"] "gcc 2.0" ["zlib 3.0"] "gcc" "2.0" []
     (by decide) (by decide)⟩

end Gbuild
